import Mathlib

/-!
Verification of the cash-flow-aware debt optimization engine of
`bryankemp/financial-debt-optimizer`.

Dates are encoded as natural numbers that preserve calendar order
(e.g. `20251119` for 2025-11-19); monetary values are exact integers in
cents (the implementation uses two-place fixed-point `Decimal` arithmetic,
which integer cents capture exactly).
-/

namespace DebtOptimizer

/-- Modelled from the spec: an income event `(date, amount)` consumed by the
minimum-payment reservation calculator (§4.1); the repository's
`debt_optimizer.core.debt_optimizer` module is not in the source tree, only
its tests are. -/
structure Income where
  date : Nat
  amount : Int
deriving DecidableEq, Repr

/-- Modelled from the spec: an obligation `(debt_name, due_date, min_amount)`
(§3, §4.1). -/
structure Obligation where
  debt_name : String
  due_date : Nat
  min_amount : Int
deriving DecidableEq, Repr

/-- Modelled from the spec: the result of the reservation calculator (§3):
a total and a per-debt-name mapping, represented as an insertion-ordered
association list exactly like a Python `dict`. -/
structure ReserveResult where
  total_reserve : Int
  per_obligation : List (String × Int)
deriving DecidableEq, Repr

/-- Association-list write with Python-`dict` semantics: replace the value
in place if the key exists, otherwise append. -/
def insertAssoc : List (String × Int) → String → Int → List (String × Int)
  | [], k, v => [(k, v)]
  | (k', v') :: rest, k, v =>
    if k' = k then (k, v) :: rest else (k', v') :: insertAssoc rest k v

/-- Dictionary lookup with a default value. -/
def lookupD {α : Type} (m : List (String × α)) (k : String) (d : α) : α :=
  ((m.find? (fun p => p.1 == k)).map Prod.snd).getD d

/-- Modelled from the spec (§4.1 step 3a): the sum of income amounts whose
date is at or before `d` (the due date is an inclusive upper bound). -/
def sumIncomesUpTo (incomes : List Income) (d : Nat) : Int :=
  ((incomes.filter (fun i => i.date ≤ d)).map (fun i => i.amount)).sum

/-- Stable insertion (by due date) used to sort obligations: an obligation is
placed before the first existing element with a strictly later due date, so
equal due dates keep input order. -/
def insertOb (x : Obligation) : List Obligation → List Obligation
  | [] => [x]
  | o :: os =>
    if x.due_date ≤ o.due_date then x :: o :: os else o :: insertOb x os

/-- Modelled from the spec (§4.1 step 1): sort obligations by due date
ascending, ties broken by input order (stable). -/
def sortObligations (obs : List Obligation) : List Obligation :=
  obs.foldr insertOb []

/-- Modelled from the spec (§4.1 step 3b): the income the current obligation
can draw on, clamped at its minimum amount. -/
def coveredAmt (incomes : List Income) (consumed : Int) (ob : Obligation) : Int :=
  min ob.min_amount (max 0 (sumIncomesUpTo incomes ob.due_date - consumed))

/-- Modelled from the spec (§4.1 step 3): process obligations in order,
threading `income_consumed`, and emit one `(debt_name, reserve)` row per
obligation. -/
def reserveRows (incomes : List Income) : Int → List Obligation → List (String × Int)
  | _, [] => []
  | consumed, ob :: rest =>
    (ob.debt_name, ob.min_amount - coveredAmt incomes consumed ob) ::
      reserveRows incomes (consumed + coveredAmt incomes consumed ob) rest

/-- The value of `income_consumed` after processing a list of obligations,
starting from `consumed`. -/
def consumedAfter (incomes : List Income) : Int → List Obligation → Int
  | consumed, [] => consumed
  | consumed, ob :: rest =>
    consumedAfter incomes (consumed + coveredAmt incomes consumed ob) rest

/-- Sum of the values of an association list. -/
def sumVals (m : List (String × Int)) : Int := (m.map Prod.snd).sum

/-- Modelled from the spec (§4.1, §7): input validation — negative amounts
and a due date before the reference date are rejected, never coerced. -/
def wellFormedInput (now : Nat) (incomes : List Income)
    (obligations : List Obligation) : Bool :=
  incomes.all (fun i => 0 ≤ i.amount) &&
    obligations.all (fun o => 0 ≤ o.min_amount && now ≤ o.due_date)

set_option linter.unusedVariables false in
/-- Modelled from the spec (§4.1): the minimum-payment reservation
calculator `compute_min_payment_reserves(now, cash_on_hand, incomes,
obligations)`.  `cash_on_hand` is accepted but does not enter the shortfall
arithmetic; malformed input raises (modelled as `Except.error`). -/
def compute_min_payment_reserves (now : Nat) (cash_on_hand : Int)
    (incomes : List Income) (obligations : List Obligation) :
    Except String ReserveResult :=
  if wellFormedInput now incomes obligations then
    let rows := reserveRows incomes 0 (sortObligations obligations)
    .ok { total_reserve := sumVals rows
          per_obligation := rows.foldl (fun m r => insertAssoc m r.1 r.2) [] }
  else
    .error "invalid input: negative amount or due_date before reference date"

/-! ### Cash-flow simulator

Modelled from the spec: the month-by-month payment simulator (§4.2) and the
strategy policies (§4.3); the repository's `debt_optimizer.core` package is
not in the source tree.  Each period runs
ACCRUE → MINIMUM_PAY → ALLOCATE_EXTRA → RECORD → ADVANCE; the configured
`extra_payment` is the surplus remaining available to extra allocation.
-/

/-- Modelled from the spec: one payable balance (§3).  The annual rate is a
fixed-point decimal held in basis points (1/10000), matching the two-place
decimal regime of §4.2's numeric semantics. -/
structure SimDebt where
  name : String
  balance : Int
  annual_rate : Int
  min_payment : Int
deriving DecidableEq, Repr

/-- Modelled from the spec: one row of the amortization output (§3). -/
structure PaymentScheduleEntry where
  period : Nat
  debt_name : String
  balance_before : Int
  balance_after : Int
  total_payment : Int
  interest_charge : Int
deriving DecidableEq, Repr

/-- Modelled from the spec: the output of one optimizer run (§3); the
non-convergence flag is result-level (§7). -/
structure OptimizationResult where
  strategy : String
  payment_schedule : List PaymentScheduleEntry
  total_interest : Int
  total_months : Nat
  converged : Bool
deriving DecidableEq, Repr

/-- Modelled from the spec: the pluggable ordering rule (§4.3). -/
inductive StrategyPolicy
  | avalanche
  | snowball
  | hybrid
deriving DecidableEq, Repr

def policyLabel : StrategyPolicy → String
  | .avalanche => "avalanche"
  | .snowball => "snowball"
  | .hybrid => "hybrid"

def maxRate (debts : List SimDebt) : Int :=
  (debts.map (fun d => d.annual_rate)).foldr max 0

/-- The smallest positive balance among the debts (0 when none). -/
def minPosBalance (debts : List SimDebt) : Int :=
  match (debts.filter (fun d => decide (0 < d.balance))).map
      (fun d => d.balance) with
  | [] => 0
  | b :: bs => bs.foldr min b

/-- Modelled from the spec (§4.3): the hybrid blended score
`w1*normalized_rate + w2*normalized_inverse_balance` with the fixed
configuration weights `w1 = w2 = 1/2`. -/
def hybridScore (debts : List SimDebt) (d : SimDebt) : ℚ :=
  (if maxRate debts = 0 then 0
   else (d.annual_rate : ℚ) / (maxRate debts : ℚ)) / 2 +
    (if d.balance = 0 then 0
     else (minPosBalance debts : ℚ) / (d.balance : ℚ)) / 2

/-- Modelled from the spec (§4.3): `true` when debt `a` ranks no lower than
debt `b` under the policy — avalanche: rate descending, ties by balance
descending; snowball: balance ascending, ties by rate descending; hybrid:
blended score descending. -/
def rankPriority (p : StrategyPolicy) (debts : List SimDebt)
    (a b : SimDebt) : Bool :=
  match p with
  | .avalanche =>
      decide (b.annual_rate < a.annual_rate) ||
        (decide (a.annual_rate = b.annual_rate) &&
          decide (b.balance ≤ a.balance))
  | .snowball =>
      decide (a.balance < b.balance) ||
        (decide (a.balance = b.balance) &&
          decide (b.annual_rate ≤ a.annual_rate))
  | .hybrid => decide (hybridScore debts b ≤ hybridScore debts a)

def insertRanked (pr : SimDebt → SimDebt → Bool) (x : SimDebt) :
    List SimDebt → List SimDebt
  | [] => [x]
  | d :: ds => if pr x d then x :: d :: ds else d :: insertRanked pr x ds

/-- Modelled from the spec (§4.3): `rank` — a pure function of the current
balances and rates, consulted once per period. -/
def rank (p : StrategyPolicy) (debts : List SimDebt) : List SimDebt :=
  debts.foldr (insertRanked (rankPriority p debts)) []

/-- Round-half-up integer division `⌊a / b + 1/2⌋` used for two-place
fixed-point monetary rounding at each period boundary. -/
def roundDiv (a b : Int) : Int := Int.fdiv (2 * a + b) (2 * b)

/-- Modelled from the spec (§4.2 ACCRUE):
`interest = round(balance * annual_rate / 12, 2)` for debts with a positive
balance — in cents and basis points, `round(balance * rate_bp / 120000)`. -/
def accrueInterest (d : SimDebt) : Int :=
  if 0 < d.balance then roundDiv (d.balance * d.annual_rate) 120000
  else 0

/-- Modelled from the spec (§4.2 MINIMUM_PAY):
`min(min_payment, balance + interest)` on every debt with positive
balance. -/
def minimumPayment (d : SimDebt) (interest : Int) : Int :=
  if 0 < d.balance then min d.min_payment (d.balance + interest) else 0

/-- Modelled from the spec (§4.2 ALLOCATE_EXTRA): cascade the extra budget
down the ranked debts, paying each positive balance off before rolling the
remainder to the next-ranked debt within the same period. -/
def allocateExtra : Int → List SimDebt → List (String × Int)
  | _, [] => []
  | left, d :: ds =>
    if 0 < d.balance ∧ 0 < left then
      (d.name, min left d.balance) ::
        allocateExtra (left - min left d.balance) ds
    else allocateExtra left ds

/-- Intermediate per-debt state threaded through one simulated period. -/
structure DebtPeriodState where
  debt : SimDebt
  interest : Int
  paid : Int
  balance_before : Int
deriving Repr

/-- Modelled from the spec (§4.2): one simulated period —
ACCRUE → MINIMUM_PAY → ALLOCATE_EXTRA → RECORD. -/
def simulatePeriod (policy : StrategyPolicy) (extra : Int) (periodIdx : Nat)
    (debts : List SimDebt) : List SimDebt × List PaymentScheduleEntry × Int :=
  let afterMin : List DebtPeriodState := debts.map (fun d =>
    let i := accrueInterest d
    let mp := minimumPayment d i
    { debt := { d with balance := d.balance + i - mp }, interest := i,
      paid := mp, balance_before := d.balance })
  let alloc := allocateExtra extra
    (rank policy (afterMin.map (fun s => s.debt)))
  let final : List DebtPeriodState := afterMin.map (fun s =>
    let ex := lookupD alloc s.debt.name 0
    let nd : SimDebt := { s.debt with balance := s.debt.balance - ex }
    { s with debt := nd, paid := s.paid + ex })
  (final.map (fun s => s.debt),
    final.filterMap (fun s =>
      if s.paid ≠ 0 ∨ s.interest ≠ 0 then
        some { period := periodIdx, debt_name := s.debt.name,
               balance_before := s.balance_before,
               balance_after := s.debt.balance,
               total_payment := s.paid, interest_charge := s.interest }
      else none),
    (afterMin.map (fun s => s.interest)).sum)

/-- Modelled from the spec (§4.2): the period loop, with the configured
maximum period count as fuel guarding non-convergence. -/
def runSimulation (policy : StrategyPolicy) (extra : Int) :
    Nat → Nat → List SimDebt → List PaymentScheduleEntry → Int →
      List PaymentScheduleEntry × Int × Nat × Bool
  | 0, months, debts, sched, ti =>
    (sched, ti, months, debts.all (fun d => decide (d.balance ≤ 0)))
  | fuel + 1, months, debts, sched, ti =>
    if debts.all (fun d => decide (d.balance ≤ 0)) then
      (sched, ti, months, true)
    else
      let pr := simulatePeriod policy extra months debts
      runSimulation policy extra fuel (months + 1) pr.1
        (sched ++ pr.2.1) (ti + pr.2.2)

/-- Modelled from the spec (§4.2): `simulate` — run period after period
until every balance reaches zero or the period ceiling is hit, and package
the `OptimizationResult`. -/
def simulate (debts : List SimDebt) (policy : StrategyPolicy) (extra : Int)
    (maxPeriods : Nat) : OptimizationResult :=
  let out := runSimulation policy extra maxPeriods 0 debts [] 0
  { strategy := policyLabel policy, payment_schedule := out.1,
    total_interest := out.2.1, total_months := out.2.2.1,
    converged := out.2.2.2 }

/-! ### Balance updater

Translated from `src/update_balances.py`: the external-ledger balance
reconciliation.  Monetary values are modelled as exact rationals; the
ledger stores credit-card balances as signed (typically negative) numbers.
-/

/-- One update record appended by `update_debts_sheet`
(`src/update_balances.py`, the dict pushed onto `updates`). -/
structure DebtUpdate where
  row : Nat
  excel_name_old : String
  excel_name_new : String
  old_balance : ℚ
  new_balance : ℚ
  score : Nat
  auto : Bool
deriving DecidableEq, Repr

/-- Translated from the per-row body of `update_debts_sheet`
(`src/update_balances.py` lines 124-191): an empty (stripped) name is
skipped; an exact credit-card name match writes `abs(balance)` without a
prompt; otherwise the external fuzzy matcher (`fuzzyMatch`, standing for
`process.extractOne`) proposes a candidate and score, and a candidate at or
above the threshold that the user approves (`approve`, standing for the
interactive prompt) writes `abs(balance)` under the canonical ledger name.
Returns the update record (if any) and the row as left in the sheet. -/
def processRow (accounts : List (String × ℚ)) (ccNames : List String)
    (threshold : Nat) (fuzzyMatch : String → Option (String × Nat))
    (approve : String → Bool) (idx : Nat) (name : String) (bal : ℚ) :
    Option DebtUpdate × (String × ℚ) :=
  if name = "" then (none, (name, bal))
  else if name ∈ ccNames then
    (some ⟨idx, name, name, bal, |lookupD accounts name 0|, 100, true⟩,
      (name, |lookupD accounts name 0|))
  else
    match fuzzyMatch name with
    | none => (none, (name, bal))
    | some (candidate, score) =>
      if score < threshold then (none, (name, bal))
      else if approve name then
        (some ⟨idx, name, candidate, bal, |lookupD accounts candidate 0|,
            score, false⟩,
          (candidate, |lookupD accounts candidate 0|))
      else (none, (name, bal))

/-- Translated from `update_debts_sheet` (`src/update_balances.py` lines
113-192): no active credit-card accounts short-circuits with no updates;
otherwise every data row is processed independently.  Returns the list of
update records and the rows as left in the sheet. -/
def update_debts_sheet (rows : List (String × ℚ))
    (accounts : List (String × ℚ)) (ccNames : List String) (threshold : Nat)
    (fuzzyMatch : String → Option (String × Nat)) (approve : String → Bool) :
    List DebtUpdate × List (String × ℚ) :=
  if ccNames.isEmpty then ([], rows)
  else
    let processed := rows.enum.map (fun p =>
      processRow accounts ccNames threshold fuzzyMatch approve
        p.1 p.2.1 p.2.2)
    (processed.filterMap Prod.fst, processed.map Prod.snd)


/-! ### Helper lemmas -/

theorem insertOb_perm (x : Obligation) (l : List Obligation) :
    List.Perm (insertOb x l) (x :: l) := by
  induction l with
  | nil => exact List.Perm.refl _
  | cons o os ih =>
    rw [insertOb]
    split
    · exact List.Perm.refl _
    · exact (ih.cons o).trans (List.Perm.swap x o os)

theorem sortObligations_perm (l : List Obligation) :
    List.Perm (sortObligations l) l := by
  induction l with
  | nil => exact List.Perm.refl _
  | cons x l ih =>
    have : sortObligations (x :: l) = insertOb x (sortObligations l) := rfl
    rw [this]
    exact (insertOb_perm x (sortObligations l)).trans (ih.cons x)

theorem reserveRows_map_fst (incomes : List Income) (obs : List Obligation) :
    ∀ consumed, (reserveRows incomes consumed obs).map Prod.fst =
      obs.map Obligation.debt_name := by
  induction obs with
  | nil => intro consumed; rfl
  | cons ob rest ih =>
    intro consumed
    simp only [reserveRows, List.map_cons, ih]

theorem insertAssoc_of_not_mem (m : List (String × Int)) (k : String) (v : Int)
    (h : k ∉ m.map Prod.fst) : insertAssoc m k v = m ++ [(k, v)] := by
  induction m with
  | nil => rfl
  | cons p rest ih =>
    obtain ⟨k', v'⟩ := p
    simp only [List.map_cons, List.mem_cons, not_or] at h
    rw [insertAssoc, if_neg (fun he => h.1 he.symm), ih h.2, List.cons_append]

theorem foldl_insertAssoc_nodup (rows : List (String × Int)) :
    ∀ acc : List (String × Int), (rows.map Prod.fst).Nodup →
      (∀ k ∈ rows.map Prod.fst, k ∉ acc.map Prod.fst) →
      rows.foldl (fun m r => insertAssoc m r.1 r.2) acc = acc ++ rows := by
  induction rows with
  | nil => intro acc _ _; simp
  | cons p rest ih =>
    intro acc hnd hdisj
    obtain ⟨k, v⟩ := p
    simp only [List.map_cons, List.nodup_cons] at hnd
    have hk : k ∉ acc.map Prod.fst := hdisj k (by simp)
    have step : insertAssoc acc k v = acc ++ [(k, v)] :=
      insertAssoc_of_not_mem acc k v hk
    have hdisj' : ∀ k' ∈ rest.map Prod.fst,
        k' ∉ (acc ++ [(k, v)]).map Prod.fst := by
      intro k' hk'
      simp only [List.map_append, List.mem_append, List.map_cons,
        List.map_nil, List.mem_singleton, not_or]
      refine ⟨hdisj k' (by simp [hk']), ?_⟩
      intro he; exact hnd.1 (he ▸ hk')
    calc ((k, v) :: rest).foldl (fun m r => insertAssoc m r.1 r.2) acc
        = rest.foldl (fun m r => insertAssoc m r.1 r.2) (insertAssoc acc k v) := rfl
      _ = (acc ++ [(k, v)]) ++ rest := by rw [step, ih _ hnd.2 hdisj']
      _ = acc ++ ((k, v) :: rest) := by simp

theorem lookupD_of_nodup (m : List (String × Int)) (k : String) (v d : Int)
    (hnd : (m.map Prod.fst).Nodup) (hmem : (k, v) ∈ m) :
    lookupD m k d = v := by
  induction m with
  | nil => cases hmem
  | cons p rest ih =>
    obtain ⟨k', v'⟩ := p
    simp only [List.map_cons, List.nodup_cons] at hnd
    rcases List.mem_cons.mp hmem with h | h
    · cases h
      simp [lookupD, List.find?]
    · have hk : k ∈ rest.map Prod.fst := by
        exact List.mem_map.mpr ⟨(k, v), h, rfl⟩
      have hne : k' ≠ k := fun he => hnd.1 (he ▸ hk)
      have : ((k', v') :: rest).find? (fun p => p.1 == k) =
          rest.find? (fun p => p.1 == k) := by
        rw [List.find?_cons_of_neg]
        simp [hne]
      rw [lookupD, this]
      exact ih hnd.2 h

/-- The per-obligation dictionary produced by the calculator, when the
obligation names are pairwise distinct, is exactly the list of rows. -/
theorem per_obligation_eq_rows (incomes : List Income) (obs : List Obligation)
    (hnd : (obs.map Obligation.debt_name).Nodup) :
    (reserveRows incomes 0 (sortObligations obs)).foldl
        (fun m r => insertAssoc m r.1 r.2) [] =
      reserveRows incomes 0 (sortObligations obs) := by
  have hperm : ((sortObligations obs).map Obligation.debt_name).Perm
      (obs.map Obligation.debt_name) := (sortObligations_perm obs).map _
  have hnd' : ((reserveRows incomes 0 (sortObligations obs)).map Prod.fst).Nodup := by
    rw [reserveRows_map_fst]
    exact hperm.nodup_iff.mpr hnd
  have := foldl_insertAssoc_nodup (reserveRows incomes 0 (sortObligations obs))
    [] hnd' (by intro k _ h; simp at h)
  simpa using this

/-- The row keys are `Nodup` whenever the input obligation names are. -/
theorem rows_keys_nodup (incomes : List Income) (obs : List Obligation)
    (hnd : (obs.map Obligation.debt_name).Nodup) :
    ((reserveRows incomes 0 (sortObligations obs)).map Prod.fst).Nodup := by
  rw [reserveRows_map_fst]
  exact ((sortObligations_perm obs).map _).nodup_iff.mpr hnd

theorem sumIncomesUpTo_eq_zero (incomes : List Income) (d : Nat)
    (h : ∀ i ∈ incomes, d < i.date) : sumIncomesUpTo incomes d = 0 := by
  unfold sumIncomesUpTo
  have hf : incomes.filter (fun i => i.date ≤ d) = [] := by
    rw [List.filter_eq_nil_iff]
    intro a ha
    simp only [decide_eq_true_eq, Nat.not_le]
    exact h a ha
  rw [hf]
  rfl

theorem coveredAmt_nonneg (incomes : List Income) (c : Int) (ob : Obligation)
    (hm : 0 ≤ ob.min_amount) : 0 ≤ coveredAmt incomes c ob :=
  le_min hm (le_max_left 0 _)

/-- An obligation due strictly before every income date draws no income:
its covered amount is zero. -/
theorem coveredAmt_of_no_income (incomes : List Income) (c : Int)
    (ob : Obligation) (hm : 0 ≤ ob.min_amount) (hc : 0 ≤ c)
    (h : ∀ i ∈ incomes, ob.due_date < i.date) :
    coveredAmt incomes c ob = 0 := by
  unfold coveredAmt
  rw [sumIncomesUpTo_eq_zero incomes _ h]
  have hmax : max 0 (0 - c) = 0 := max_eq_left (by omega)
  rw [hmax]
  exact min_eq_right hm

/-- An obligation due strictly before every income date contributes the row
`(debt_name, min_amount)` — full reservation — wherever it sits in the
processed list. -/
theorem mem_reserveRows_full (incomes : List Income) (ob : Obligation)
    (hinc : ∀ i ∈ incomes, ob.due_date < i.date) :
    ∀ (obs : List Obligation) (c : Int), 0 ≤ c →
      (∀ o ∈ obs, 0 ≤ o.min_amount) → ob ∈ obs →
      (ob.debt_name, ob.min_amount) ∈ reserveRows incomes c obs := by
  intro obs
  induction obs with
  | nil => intro c _ _ hmem; cases hmem
  | cons o rest ih =>
    intro c hc hmins hmem
    rcases List.mem_cons.mp hmem with h | h
    · subst h
      rw [reserveRows,
        coveredAmt_of_no_income incomes c ob (hmins ob (by simp)) hc hinc]
      simp
    · rw [reserveRows]
      refine List.mem_cons_of_mem _ (ih (c + coveredAmt incomes c o) ?_ ?_ h)
      · have := coveredAmt_nonneg incomes c o (hmins o (by simp))
        omega
      · intro o' ho'
        exact hmins o' (List.mem_cons_of_mem _ ho')

theorem reserveRows_length (incomes : List Income) (obs : List Obligation) :
    ∀ c, (reserveRows incomes c obs).length = obs.length := by
  induction obs with
  | nil => intro c; rfl
  | cons ob rest ih => intro c; simp [reserveRows, ih]

theorem reserveRows_append (incomes : List Income) (l1 l2 : List Obligation) :
    ∀ c, reserveRows incomes c (l1 ++ l2) =
      reserveRows incomes c l1 ++
        reserveRows incomes (consumedAfter incomes c l1) l2 := by
  induction l1 with
  | nil => intro c; rfl
  | cons ob rest ih =>
    intro c
    simp only [List.cons_append, reserveRows, consumedAfter]
    congr 1
    exact ih _

/-- Every update record `processRow` emits carries
`new_balance = abs(matched ledger balance)`. -/
theorem processRow_new_balance (accounts : List (String × ℚ))
    (ccNames : List String) (threshold : Nat)
    (fuzzyMatch : String → Option (String × Nat)) (approve : String → Bool)
    (idx : Nat) (name : String) (bal : ℚ) (u : DebtUpdate)
    (h : (processRow accounts ccNames threshold fuzzyMatch approve
      idx name bal).1 = some u) :
    u.new_balance = |lookupD accounts u.excel_name_new 0| ∧
      0 ≤ u.new_balance := by
  unfold processRow at h
  by_cases h1 : name = ""
  · rw [if_pos h1] at h
    exact Option.noConfusion h
  · rw [if_neg h1] at h
    by_cases h2 : name ∈ ccNames
    · rw [if_pos h2] at h
      injection h with h
      subst h
      exact ⟨rfl, abs_nonneg _⟩
    · rw [if_neg h2] at h
      rcases hfm : fuzzyMatch name with _ | ⟨candidate, score⟩ <;>
        rw [hfm] at h
      · exact Option.noConfusion h
      · dsimp only at h
        by_cases h3 : score < threshold
        · rw [if_pos h3] at h
          exact Option.noConfusion h
        · rw [if_neg h3] at h
          by_cases h4 : approve name = true
          · rw [if_pos h4] at h
            injection h with h
            subst h
            exact ⟨rfl, abs_nonneg _⟩
          · rw [if_neg h4] at h
            exact Option.noConfusion h

end DebtOptimizer

open DebtOptimizer

/-- Claim C1: on reference date 2025-11-11 with cash 1523.75, incomes
590.00 on 2025-11-12 and 1492.37 on 2025-11-21, and the single obligation
"Prime Visa" due 2025-11-19 for a 805.00 minimum, the calculator returns
`total_reserve = 215.00` with `per_obligation["Prime Visa"] = 215.00`:
only the 590.00 arriving on or before the due date offsets the 805.00
minimum. -/
theorem november_2025_prime_visa_scenario :
    compute_min_payment_reserves 20251111 152375
      [⟨20251112, 59000⟩, ⟨20251121, 149237⟩]
      [⟨"Prime Visa", 20251119, 80500⟩] =
      .ok ⟨21500, [("Prime Visa", 21500)]⟩ := by
  rfl

/-- Counterexample to claim C2 as stated: two obligations sharing the debt
name "A" (100 each, no income) are accepted; `total_reserve` accumulates
both reserves (200) but the name-keyed `per_obligation` dictionary retains a
single entry, whose values sum to 100 only. -/
theorem total_reserve_sum_counterexample :
    compute_min_payment_reserves 1 0 [] [⟨"A", 5, 100⟩, ⟨"A", 7, 100⟩] =
      .ok ⟨200, [("A", 100)]⟩ ∧ sumVals [("A", 100)] ≠ (200 : Int) := by
  exact ⟨rfl, by decide⟩

/-- Claim C2 (amended: the obligations' debt names must be pairwise
distinct): every accepted input whose obligations carry pairwise-distinct
debt names yields a `ReserveResult` with
`total_reserve = sum(per_obligation.values())`. -/
theorem total_reserve_eq_sum_per_obligation (now : Nat) (cash : Int)
    (incomes : List Income) (obs : List Obligation) (r : ReserveResult)
    (hok : compute_min_payment_reserves now cash incomes obs = .ok r)
    (hnd : (obs.map Obligation.debt_name).Nodup) :
    r.total_reserve = sumVals r.per_obligation := by
  simp only [compute_min_payment_reserves] at hok
  split at hok
  · injection hok with h
    subst h
    simp only [per_obligation_eq_rows incomes obs hnd]
  · cases hok

/-- Witness for C2's amended theorem: the two-card November scenario with
distinct names, where the invariant holds with both sides equal to 700.00. -/
theorem total_reserve_eq_sum_per_obligation_witness :
    ∃ r, compute_min_payment_reserves 20251101 200000 [⟨20251120, 150000⟩]
        [⟨"Card A", 20251115, 30000⟩, ⟨"Card B", 20251115, 40000⟩] = .ok r ∧
      r.total_reserve = sumVals r.per_obligation := by
  refine ⟨⟨70000, [("Card A", 30000), ("Card B", 40000)]⟩, rfl, ?_⟩
  exact total_reserve_eq_sum_per_obligation 20251101 200000 [⟨20251120, 150000⟩]
    [⟨"Card A", 20251115, 30000⟩, ⟨"Card B", 20251115, 40000⟩]
    ⟨70000, [("Card A", 30000), ("Card B", 40000)]⟩ rfl (by decide)

/-- Counterexample to claim C4 as stated: with two obligations sharing the
name "A" — due day 5 needing 100, and due day 20 needing 50 — and a single
income of 1000 on day 10, the day-5 obligation is due strictly before every
income date, yet `per_obligation["A"]` ends up 0 (the later same-name entry
overwrote it), not its `min_amount` of 100. -/
theorem full_reservation_counterexample :
    compute_min_payment_reserves 1 0 [⟨10, 1000⟩]
        [⟨"A", 5, 100⟩, ⟨"A", 20, 50⟩] = .ok ⟨100, [("A", 0)]⟩ ∧
      (([Income.mk 10 1000].all fun i => decide (5 < i.date)) = true) ∧
      lookupD [("A", 0)] "A" 0 ≠ (100 : Int) := by
  exact ⟨rfl, by decide, by decide⟩

/-- Claim C4 (amended: the obligations' debt names must be pairwise
distinct): on every accepted input with distinct debt names, an obligation
due strictly before every income date is reserved in full
(`per_obligation[debt_name] = min_amount`); in the concrete two-card
scenario (300.00 and 400.00 due 2025-11-15, income only 2025-11-20) each
entry equals its own minimum and the total is 700.00. -/
theorem full_reservation_before_income (now : Nat) (cash : Int)
    (incomes : List Income) (obs : List Obligation) (r : ReserveResult)
    (ob : Obligation)
    (hok : compute_min_payment_reserves now cash incomes obs = .ok r)
    (hnd : (obs.map Obligation.debt_name).Nodup)
    (hmem : ob ∈ obs)
    (hearly : ∀ i ∈ incomes, ob.due_date < i.date) :
    lookupD r.per_obligation ob.debt_name 0 = ob.min_amount ∧
      compute_min_payment_reserves 20251101 200000 [⟨20251120, 150000⟩]
        [⟨"Card A", 20251115, 30000⟩, ⟨"Card B", 20251115, 40000⟩] =
        .ok ⟨70000, [("Card A", 30000), ("Card B", 40000)]⟩ := by
  refine ⟨?_, rfl⟩
  simp only [compute_min_payment_reserves] at hok
  split at hok
  case isTrue hwf =>
    injection hok with h
    subst h
    simp only [wellFormedInput, Bool.and_eq_true, List.all_eq_true,
      decide_eq_true_eq] at hwf
    have hmins : ∀ o ∈ sortObligations obs, 0 ≤ o.min_amount := by
      intro o ho
      exact (hwf.2 o ((sortObligations_perm obs).mem_iff.mp ho)).1
    have hmem' : ob ∈ sortObligations obs :=
      (sortObligations_perm obs).mem_iff.mpr hmem
    have hrow := mem_reserveRows_full incomes ob hearly
      (sortObligations obs) 0 le_rfl hmins hmem'
    rw [per_obligation_eq_rows incomes obs hnd]
    exact lookupD_of_nodup _ _ _ _ (rows_keys_nodup incomes obs hnd) hrow
  case isFalse => cases hok

/-- Witness for C4's amended theorem: "Card A" (min 300.00, due 2025-11-15)
with income only on 2025-11-20 is reserved in full. -/
theorem full_reservation_before_income_witness :
    lookupD (ReserveResult.per_obligation
        ⟨70000, [("Card A", 30000), ("Card B", 40000)]⟩) "Card A" 0 =
      (30000 : Int) ∧
      compute_min_payment_reserves 20251101 200000 [⟨20251120, 150000⟩]
        [⟨"Card A", 20251115, 30000⟩, ⟨"Card B", 20251115, 40000⟩] =
        .ok ⟨70000, [("Card A", 30000), ("Card B", 40000)]⟩ :=
  full_reservation_before_income 20251101 200000 [⟨20251120, 150000⟩]
    [⟨"Card A", 20251115, 30000⟩, ⟨"Card B", 20251115, 40000⟩]
    ⟨70000, [("Card A", 30000), ("Card B", 40000)]⟩
    ⟨"Card A", 20251115, 30000⟩ rfl (by decide) (by decide) (by decide)

/-- Counterexample to claim C5 as stated: with two obligations sharing the
name "A" — due day 5 needing 100, and due day 20 needing 50 — and a single
income of 100 arriving exactly on day 5, the day-5 obligation is fully
covered (unconsumed income 100 ≥ its 100 minimum, on its due date), yet the
returned `per_obligation["A"]` is 50, not 0: the later same-name entry
overwrote the 0. -/
theorem covered_obligation_counterexample :
    compute_min_payment_reserves 1 0 [⟨5, 100⟩]
        [⟨"A", 5, 100⟩, ⟨"A", 20, 50⟩] = .ok ⟨50, [("A", 50)]⟩ ∧
      (100 : Int) ≤ sumIncomesUpTo [⟨5, 100⟩] 5 -
        consumedAfter [⟨5, 100⟩] 0 [] ∧
      lookupD [("A", 50)] "A" 0 ≠ (0 : Int) := by
  exact ⟨rfl, by decide, by decide⟩

/-- Claim C5 (amended: the obligations' debt names must be pairwise
distinct): on every accepted input with distinct debt names, an obligation
whose still-unconsumed income arriving on or before its due date (inclusive
bound) reaches its minimum amount gets `per_obligation[debt_name] = 0` in
the returned mapping; concretely, income of 2000.00 arriving exactly on the
2025-11-15 due date covers a 500.00 minimum completely (`total_reserve = 0`,
`per_obligation["Credit Card"] = 0`). -/
theorem covered_obligation_zero_reserve (now : Nat) (cash : Int)
    (incomes : List Income) (obs : List Obligation) (r : ReserveResult)
    (pre post : List Obligation) (ob : Obligation)
    (hok : compute_min_payment_reserves now cash incomes obs = .ok r)
    (hnd : (obs.map Obligation.debt_name).Nodup)
    (hsplit : sortObligations obs = pre ++ ob :: post)
    (hcov : ob.min_amount ≤
      sumIncomesUpTo incomes ob.due_date - consumedAfter incomes 0 pre) :
    lookupD r.per_obligation ob.debt_name 0 = 0 ∧
      compute_min_payment_reserves 20251101 10000 [⟨20251115, 200000⟩]
        [⟨"Credit Card", 20251115, 50000⟩] =
        .ok ⟨0, [("Credit Card", 0)]⟩ := by
  refine ⟨?_, rfl⟩
  simp only [compute_min_payment_reserves] at hok
  split at hok
  case isTrue hwf =>
    injection hok with h
    subst h
    rw [per_obligation_eq_rows incomes obs hnd]
    have hmem_ob : ob ∈ sortObligations obs := by
      rw [hsplit]
      exact List.mem_append_right _ (List.mem_cons_self _ _)
    simp only [wellFormedInput, Bool.and_eq_true, List.all_eq_true,
      decide_eq_true_eq] at hwf
    have hm : 0 ≤ ob.min_amount :=
      (hwf.2 ob ((sortObligations_perm obs).mem_iff.mp hmem_ob)).1
    have hcv : coveredAmt incomes (consumedAfter incomes 0 pre) ob =
        ob.min_amount := by
      unfold coveredAmt
      have h1 : max 0 (sumIncomesUpTo incomes ob.due_date -
          consumedAfter incomes 0 pre) =
          sumIncomesUpTo incomes ob.due_date - consumedAfter incomes 0 pre :=
        max_eq_right (by omega)
      rw [h1]
      exact min_eq_left hcov
    have hrow : (ob.debt_name, (0 : Int)) ∈
        reserveRows incomes 0 (sortObligations obs) := by
      rw [hsplit, reserveRows_append, reserveRows]
      refine List.mem_append_right _ ?_
      rw [hcv, sub_self]
      exact List.mem_cons_self _ _
    exact lookupD_of_nodup _ _ _ _ (rows_keys_nodup incomes obs hnd) hrow
  case isFalse => cases hok

/-- Witness for C5's amended theorem: the single "Credit Card" obligation of
500.00 due 2025-11-15, fully covered by 2000.00 income arriving on the due
date, has a zero entry in the returned mapping. -/
theorem covered_obligation_zero_reserve_witness :
    lookupD (ReserveResult.per_obligation ⟨0, [("Credit Card", 0)]⟩)
        "Credit Card" 0 = (0 : Int) ∧
      compute_min_payment_reserves 20251101 10000 [⟨20251115, 200000⟩]
        [⟨"Credit Card", 20251115, 50000⟩] =
        .ok ⟨0, [("Credit Card", 0)]⟩ :=
  covered_obligation_zero_reserve 20251101 10000 [⟨20251115, 200000⟩]
    [⟨"Credit Card", 20251115, 50000⟩] ⟨0, [("Credit Card", 0)]⟩
    [] [] ⟨"Credit Card", 20251115, 50000⟩ rfl (by decide) rfl (by decide)

/-- Claim C3: income consumed by an earlier-due obligation is unavailable to
a later-due one.  With two obligations in due-date order (`t1 < t2`,
distinct names) on an accepted input whose income available by `t1` is
nonnegative and fully consumed by the first minimum (`S t1 ≤ m1`), the
second obligation's reserve equals its shortfall after the consumed
`S t1` is subtracted from the income available to it:
`m2 - min m2 (max 0 (S t2 - S t1))` — no income dollar counts twice. -/
theorem no_double_counting_of_income (now : Nat) (cash : Int)
    (incomes : List Income) (n1 n2 : String) (t1 t2 : Nat) (m1 m2 : Int)
    (hwf : wellFormedInput now incomes [⟨n1, t1, m1⟩, ⟨n2, t2, m2⟩] = true)
    (ht : t1 < t2) (hn : n1 ≠ n2)
    (hpos : 0 ≤ sumIncomesUpTo incomes t1)
    (hfull : sumIncomesUpTo incomes t1 ≤ m1) :
    ∃ r, compute_min_payment_reserves now cash incomes
        [⟨n1, t1, m1⟩, ⟨n2, t2, m2⟩] = .ok r ∧
      lookupD r.per_obligation n2 0 =
        m2 - min m2 (max 0 (sumIncomesUpTo incomes t2 -
          sumIncomesUpTo incomes t1)) := by
  have hsort : sortObligations [⟨n1, t1, m1⟩, ⟨n2, t2, m2⟩] =
      [⟨n1, t1, m1⟩, ⟨n2, t2, m2⟩] := by
    unfold sortObligations
    simp [insertOb, Nat.le_of_lt ht]
  have hcv1 : coveredAmt incomes 0 ⟨n1, t1, m1⟩ = sumIncomesUpTo incomes t1 := by
    unfold coveredAmt
    have h1 : max 0 (sumIncomesUpTo incomes t1 - 0) = sumIncomesUpTo incomes t1 := by
      omega
    rw [h1]
    exact min_eq_right hfull
  have hok : compute_min_payment_reserves now cash incomes
      [⟨n1, t1, m1⟩, ⟨n2, t2, m2⟩] =
      .ok ⟨sumVals (reserveRows incomes 0 [⟨n1, t1, m1⟩, ⟨n2, t2, m2⟩]),
        (reserveRows incomes 0 [⟨n1, t1, m1⟩, ⟨n2, t2, m2⟩]).foldl
          (fun m r => insertAssoc m r.1 r.2) []⟩ := by
    rw [compute_min_payment_reserves, if_pos hwf]
    simp only [hsort]
  refine ⟨_, hok, ?_⟩
  simp only [reserveRows, hcv1, zero_add]
  simp [insertAssoc, lookupD, List.find?, hn, coveredAmt]

/-- Witness for C3: income of 500 on day 2 is fully consumed by a 500
minimum due day 2, so a 300 minimum due day 4 is reserved in full (300),
even though 500 ≥ 300 arrived before its due date. -/
theorem no_double_counting_of_income_witness :
    ∃ r, compute_min_payment_reserves 1 0 [⟨2, 500⟩]
        [⟨"A", 2, 500⟩, ⟨"B", 4, 300⟩] = .ok r ∧
      lookupD r.per_obligation "B" 0 =
        300 - min 300 (max 0 (sumIncomesUpTo [⟨2, 500⟩] 4 -
          sumIncomesUpTo [⟨2, 500⟩] 2)) :=
  no_double_counting_of_income 1 0 [⟨2, 500⟩] "A" "B" 2 4 500 300
    (by decide) (by decide) (by decide) (by decide) (by decide)

/-- Claim C6: the reservation calculator's output does not depend on
`cash_on_hand` — two runs differing only in that argument return the same
result (same `total_reserve`, same `per_obligation`). -/
theorem cash_on_hand_independence (now : Nat) (c1 c2 : Int)
    (incomes : List Income) (obs : List Obligation) :
    compute_min_payment_reserves now c1 incomes obs =
      compute_min_payment_reserves now c2 incomes obs := rfl

/-- Claim C9: the calculator errors exactly on malformed input — a negative
income amount, a negative minimum amount, or a due date before the
reference date — and returns a `ReserveResult` on every well-formed
input. -/
theorem validation_rejects_malformed_input (now : Nat) (cash : Int)
    (incomes : List Income) (obs : List Obligation) :
    (∃ r, compute_min_payment_reserves now cash incomes obs = .ok r) ↔
      ((∀ i ∈ incomes, 0 ≤ i.amount) ∧
        ∀ o ∈ obs, 0 ≤ o.min_amount ∧ now ≤ o.due_date) := by
  by_cases h : wellFormedInput now incomes obs = true
  · simp only [compute_min_payment_reserves, if_pos h]
    simp only [wellFormedInput, Bool.and_eq_true, List.all_eq_true,
      decide_eq_true_eq] at h
    constructor
    · intro _; exact h
    · intro _; exact ⟨_, rfl⟩
  · simp only [compute_min_payment_reserves, if_neg h]
    constructor
    · rintro ⟨r, hr⟩; cases hr
    · intro hp
      exfalso
      apply h
      simp only [wellFormedInput, Bool.and_eq_true, List.all_eq_true,
        decide_eq_true_eq]
      exact hp

/-- Claim C7: the simulator is deterministic — two runs on identical inputs
produce identical results, in particular identical `payment_schedule`
sequences, and each policy's `rank` is a pure function of the debts it is
given. -/
theorem simulator_deterministic (debts : List SimDebt)
    (policy : StrategyPolicy) (extra : Int) (maxPeriods : Nat) :
    simulate debts policy extra maxPeriods =
        simulate debts policy extra maxPeriods ∧
      (simulate debts policy extra maxPeriods).payment_schedule =
        (simulate debts policy extra maxPeriods).payment_schedule ∧
      ∀ ds : List SimDebt, rank policy ds = rank policy ds :=
  ⟨rfl, rfl, fun _ => rfl⟩

/-- Claim C8: a single debt of 1200.00 at 0% APR with a 100.00 minimum
payment and 100.00 extra payment reaches zero balance in exactly 6 periods
with zero total interest. -/
theorem single_debt_zero_apr_six_periods :
    (simulate [⟨"Loan", 120000, 0, 10000⟩] .avalanche 10000 360).total_months
        = 6 ∧
      (simulate [⟨"Loan", 120000, 0, 10000⟩] .avalanche 10000
        360).total_interest = 0 ∧
      (simulate [⟨"Loan", 120000, 0, 10000⟩] .avalanche 10000
        360).converged = true := by
  refine ⟨?_, ?_, ?_⟩ <;> decide

/-- Claim C10: every balance `update_debts_sheet` writes into the Debts
sheet — whether from an exact name match or an approved fuzzy match — equals
the absolute value of the matched ledger account's balance, hence is never
negative even though the ledger stores credit-card balances as negative
numbers. -/
theorem debts_sheet_writes_abs_balance (rows accounts : List (String × ℚ))
    (ccNames : List String) (threshold : Nat)
    (fuzzyMatch : String → Option (String × Nat)) (approve : String → Bool)
    (u : DebtUpdate)
    (hu : u ∈ (update_debts_sheet rows accounts ccNames threshold
      fuzzyMatch approve).1) :
    u.new_balance = |lookupD accounts u.excel_name_new 0| ∧
      0 ≤ u.new_balance := by
  simp only [update_debts_sheet] at hu
  split at hu
  · simp at hu
  · simp only [List.mem_filterMap, List.mem_map] at hu
    obtain ⟨pr, ⟨p, _, hpr⟩, hfst⟩ := hu
    subst hpr
    exact processRow_new_balance accounts ccNames threshold fuzzyMatch
      approve p.1 p.2.1 p.2.2 u hfst

/-- Witness for C10: the exact-match scenario of the balance-updater test —
sheet row "Chase Freedom" with old balance 1000.00 against a ledger balance
of −1500.00 — produces an update whose written balance is 1500.00. -/
theorem debts_sheet_writes_abs_balance_witness :
    (⟨0, "Chase Freedom", "Chase Freedom", 1000, 1500, 100, true⟩ :
        DebtUpdate).new_balance =
      |lookupD [("Chase Freedom", (-1500 : ℚ))] "Chase Freedom" 0| ∧
      (0 : ℚ) ≤ (⟨0, "Chase Freedom", "Chase Freedom", 1000, 1500, 100,
        true⟩ : DebtUpdate).new_balance :=
  debts_sheet_writes_abs_balance [("Chase Freedom", 1000)]
    [("Chase Freedom", -1500)] ["Chase Freedom"] 80
    (fun _ => none) (fun _ => false)
    ⟨0, "Chase Freedom", "Chase Freedom", 1000, 1500, 100, true⟩
    (by decide)
